import Mathlib

/-!
# Verification of the message delivery-status pipeline

Shallow embedding of the messaging backend's core: the Mongoose data model
(`models/Message`, `models/Chat`), the Socket.IO handlers and HTTP endpoints
of the enhanced `server.js` variant (message submission, delivery
acknowledgment, read reconciliation, presence tracking), and the divergent
`send_message` handler variant found in `routes/auth.js`.

Conventions of the embedding:
- User ids, socket ids, chat ids, message ids and times are `Nat`
  (times are epoch milliseconds, as produced by `Date.now()`).
- Each handler invocation receives a single `now : Nat`; the several
  `new Date()` / `Date.now()` calls inside one handler body are modelled as
  reading the same clock value (within one event-loop tick they differ by at
  most a few milliseconds, and no guard in the code distinguishes them).
- MongoDB update operations (`updateMany`, `findOneAndUpdate`,
  `findByIdAndUpdate`) are modelled as pointwise maps over the message list;
  `modifiedCount` is the number of documents matching the filter (every
  matching document here is actually changed, since each update writes a
  status different from the one required by its filter).
- A JavaScript value that may be absent or falsy is an `Option`;
  `none` models a missing field and `some ""` an empty string (both falsy).
- Handlers are atomic state transformers, except that the push-path
  `send_message` handler is split at its `await message.populate(...)`
  suspension point into `sockSendPhase1` (validate/resolve/save) and
  `sockSendPhase2` (acknowledge/push/auto-deliver), because another event
  (e.g. a read signal) can be processed between those two phases.
-/

/-- Message status enumeration, from `models/Message.js`:
`enum: ["sent", "delivered", "read"], default: "sent"`. -/
inductive MsgStatus
  | sent
  | delivered
  | read
deriving DecidableEq, Repr

/-- Position of a status in the forward order sent → delivered → read. -/
def MsgStatus.rank : MsgStatus → Nat
  | .sent => 0
  | .delivered => 1
  | .read => 2

/-- A stored message document (`models/Message.js`): chat id, sender,
receiver, content, creation timestamp, status (default `sent`), and the
nullable `deliveredAt` / `readAt` stamp fields (default `null`). -/
structure Message where
  msgId : Nat
  chatId : Nat
  sender : Nat
  receiver : Nat
  content : String
  timestamp : Nat
  status : MsgStatus
  deliveredAt : Option Nat
  readAt : Option Nat
deriving DecidableEq, Repr

/-- A conversation document (`models/Chat.js`): participant list plus
creation / activity timestamps. The schema has only a non-unique index on
`participants`. -/
structure Chat where
  chatId : Nat
  participants : List Nat
  createdAt : Nat
  updatedAt : Nat
deriving DecidableEq, Repr

/-- An active Socket.IO connection: an entry of `io.sockets.sockets`,
carrying the authenticated user id (`socket.userId`). -/
structure Socket where
  sockId : Nat
  userId : Nat
deriving DecidableEq, Repr

/-- Events emitted to a connected client, with the payload fields the
claims refer to. `toUser` is the user id owning the target socket. -/
inductive Emit
  | messageSent (toUser : Nat) (success : Bool) (messageId : Option Nat)
      (chatId : Option Nat) (content : Option String)
  | chatUpdated (toUser : Nat) (chatId : Nat) (lastMessage : String)
  | newMessage (toUser : Nat) (id : Nat) (content : String)
      (senderId : Nat) (chatId : Nat) (receiverId : Nat)
  | messageDelivered (toUser : Nat) (messageId : Nat) (deliveredAt : Nat)
  | messageRead (toUser : Nat) (chatId : Nat) (readerId : Nat)
      (messageCount : Nat)
deriving DecidableEq, Repr

/-- Whole-server state: the two MongoDB collections, the set of live
Socket.IO connections, and the in-memory `global.onlineUsers` set.
`nextChatId` / `nextMsgId` model MongoDB's generation of fresh `_id`s. -/
structure ServerState where
  chats : List Chat
  messages : List Message
  sockets : List Socket
  onlineUsers : List Nat
  nextChatId : Nat
  nextMsgId : Nat
deriving DecidableEq, Repr

/-- The empty server: no documents, no connections (process start-up). -/
def initialState : ServerState :=
  { chats := [], messages := [], sockets := [], onlineUsers := [],
    nextChatId := 0, nextMsgId := 0 }

/-- Whitespace stripped by JavaScript `String.prototype.trim` (the ASCII
white-space and line-terminator characters). -/
def isJsSpace (c : Char) : Bool :=
  c = ' ' || c = '\t' || c = '\n' || c = '\r' || c = '\x0b' || c = '\x0c'

/-- Model of `content.trim()`: remove leading and trailing whitespace. -/
def jsTrim (s : String) : String :=
  ⟨((s.data.dropWhile isJsSpace).reverse.dropWhile isJsSpace).reverse⟩

/-- JavaScript truthiness of the `content` request field: present and not
the empty string (`if (!content) ...`). -/
def contentTruthy : Option String → Bool
  | none => false
  | some s => s ≠ ""

/-- JavaScript truthiness of the `receiverId` request field (`none` models
a missing or empty id). -/
def receiverTruthy : Option Nat → Bool
  | none => false
  | some _ => true

/-- The filter of `Chat.findOne({ participants: { $all: [u1, u2], $size: 2 } })`:
the participant array has exactly two entries and contains both users. -/
def pairMatch (u1 u2 : Nat) (c : Chat) : Bool :=
  c.participants.contains u1 && c.participants.contains u2 &&
    c.participants.length = 2

/-- The lookup half of `chatSchema.statics.findOrCreateChat`. -/
def chatLookup (chats : List Chat) (u1 u2 : Nat) : Option Chat :=
  chats.find? (pairMatch u1 u2)

/-- A fresh chat document as built by `new this({ participants: [u1, u2] })`
followed by `save()` (the pre-save hook stamps `updatedAt`). -/
def newChat (u1 u2 now chatId : Nat) : Chat :=
  { chatId := chatId, participants := [u1, u2], createdAt := now,
    updatedAt := now }

/-- `Chat.findOrCreateChat(user1Id, user2Id)`: look the pair up; if absent,
create and save a new chat. Returns the chat, the updated collection, and
the next fresh id. There is no uniqueness constraint: the `participants`
index of the schema is non-unique. -/
def findOrCreateChat (chats : List Chat) (u1 u2 now nextId : Nat) :
    Chat × List Chat × Nat :=
  match chatLookup chats u1 u2 with
  | some c => (c, chats, nextId)
  | none =>
    let c := newChat u1 u2 now nextId
    (c, chats ++ [c], nextId + 1)

/-- One interleaving of two concurrent `findOrCreateChat(A,B)` and
`findOrCreateChat(B,A)` calls: both `findOne` queries complete (each an
`await` suspension point) before either `save()` runs. -/
def findOrCreateChatRace (chats : List Chat) (a b now nextId : Nat) :
    List Chat :=
  let r1 := chatLookup chats a b
  let r2 := chatLookup chats b a
  let chats1 := if r1 = none then chats ++ [newChat a b now nextId] else chats
  let chats2 :=
    if r2 = none then chats1 ++ [newChat b a now (nextId + 1)] else chats1
  chats2

/-- Per-message effect of the delivery-acknowledgment endpoint's
`findOneAndUpdate({ _id: messageId, status: 'sent' },
{ status: 'delivered', deliveredAt: new Date() })`
(`POST /api/messages/:id/delivered`): conditional on `status: 'sent'`. -/
def deliveredAckStep (messageId now : Nat) (m : Message) : Message :=
  if m.msgId = messageId ∧ m.status = MsgStatus.sent then
    { m with status := MsgStatus.delivered, deliveredAt := some now }
  else m

/-- Per-message effect of the push path's automatic delivery update
`Message.findByIdAndUpdate(message._id, { status: 'delivered',
deliveredAt: new Date() })` inside the `send_message` handler. Note the
filter is the id alone: unlike the acknowledgment endpoint, there is no
`status: 'sent'` condition. -/
def autoDeliverStep (messageId now : Nat) (m : Message) : Message :=
  if m.msgId = messageId then
    { m with status := MsgStatus.delivered, deliveredAt := some now }
  else m

/-- Per-message effect of
`updateMany({ chatId, receiver, status: 'delivered' },
{ status: 'read', readAt: new Date() })` — used both as the first update of
the socket `message_read` handler and as step 2 of `POST /api/messages/read`. -/
def deliveredToReadStep (cid reader now : Nat) (m : Message) : Message :=
  if m.chatId = cid ∧ m.receiver = reader ∧ m.status = MsgStatus.delivered then
    { m with status := MsgStatus.read, readAt := some now }
  else m

/-- Per-message effect of the grace-window bump
`updateMany({ chatId, receiver, status: 'sent',
timestamp: { $gte: new Date(Date.now() - 60000) } },
{ status: 'delivered', deliveredAt: new Date() })` — used by both
read-reconciliation paths. -/
def graceDeliverStep (cid reader now : Nat) (m : Message) : Message :=
  if m.chatId = cid ∧ m.receiver = reader ∧ m.status = MsgStatus.sent ∧
      now - 60000 ≤ m.timestamp then
    { m with status := MsgStatus.delivered, deliveredAt := some now }
  else m

/-- A `$gte` comparison against a nullable stamp field: matches exactly
when the stamp is present and at least the bound (`null` never matches). -/
def stampGte (d : Option Nat) (bound : Nat) : Bool :=
  match d with
  | some t => bound ≤ t
  | none => false

/-- Per-message effect of the socket read handler's third update
`updateMany({ chatId, receiver, status: 'delivered',
deliveredAt: { $gte: new Date(Date.now() - 5000) } },
{ status: 'read', readAt: new Date() })`. -/
def freshDeliveredToReadStep (cid reader now : Nat) (m : Message) : Message :=
  if m.chatId = cid ∧ m.receiver = reader ∧ m.status = MsgStatus.delivered ∧
      stampGte m.deliveredAt (now - 5000) = true then
    { m with status := MsgStatus.read, readAt := some now }
  else m

/-- Filter of the socket read handler's
`Message.find({ chatId, receiver, status: 'sent',
timestamp: { $gte: new Date(Date.now() - 60000) } })` query. -/
def isRecentSent (cid reader now : Nat) (m : Message) : Bool :=
  decide (m.chatId = cid ∧ m.receiver = reader ∧ m.status = MsgStatus.sent ∧
    now - 60000 ≤ m.timestamp)

/-- `Array.from(io.sockets.sockets.values()).find(s => s.userId === uid)`:
linear scan of the live connections for a user's socket. -/
def findSocketFor (sockets : List Socket) (uid : Nat) : Option Socket :=
  sockets.find? (fun s => s.userId = uid)

/-- Data about the freshly saved message that the push-path `send_message`
handler keeps in local variables across its `await` suspension points. -/
structure PendingSend where
  msgId : Nat
  chatId : Nat
  senderUser : Nat
  receiverId : Nat
  content : String
  timestamp : Nat
deriving DecidableEq, Repr

/-- First phase of the enhanced `send_message` socket handler
(`server.js`): validate (`if (!receiverId || !content) return;`), resolve
the chat, build the message with `status: 'sent'` and trimmed content, and
save it. On a persistence failure the `catch` block emits a failure
acknowledgment. Ends at the `await message.populate(...)` suspension
point; the returned `PendingSend` is the handler's local state. -/
def sockSendPhase1 (st : ServerState) (senderSock : Socket)
    (receiverId : Option Nat) (content : Option String) (now : Nat)
    (saveOk : Bool) : ServerState × Option PendingSend × List Emit :=
  match receiverId, content with
  | some rid, some c =>
    if c = "" then (st, none, [])
    else
      let fc := findOrCreateChat st.chats senderSock.userId rid now st.nextChatId
      if saveOk then
        let msg : Message :=
          { msgId := st.nextMsgId, chatId := fc.1.chatId,
            sender := senderSock.userId, receiver := rid,
            content := jsTrim c, timestamp := now,
            status := MsgStatus.sent, deliveredAt := none, readAt := none }
        ({ st with
            chats := fc.2.1, nextChatId := fc.2.2,
            messages := st.messages ++ [msg], nextMsgId := st.nextMsgId + 1 },
         some { msgId := msg.msgId, chatId := fc.1.chatId,
                senderUser := senderSock.userId, receiverId := rid,
                content := msg.content, timestamp := now },
         [])
      else
        ({ st with chats := fc.2.1, nextChatId := fc.2.2 },
         none,
         [Emit.messageSent senderSock.userId false none none none])
  | _, _ => (st, none, [])

/-- Second phase of the enhanced `send_message` handler, after the
`populate` await resumes: acknowledge the sender (`message_sent`,
`chat_updated`), look the receiver up among the live sockets; if present,
push `new_message`, run the unconditional automatic delivery update
(`findByIdAndUpdate`, see `autoDeliverStep`) and notify the sender with
`message_delivered`; finally emit the second `message_sent`
acknowledgment. -/
def sockSendPhase2 (st : ServerState) (p : PendingSend) (now : Nat) :
    ServerState × List Emit :=
  let ack := Emit.messageSent p.senderUser true (some p.msgId)
    (some p.chatId) (some p.content)
  let upd := Emit.chatUpdated p.senderUser p.chatId p.content
  match findSocketFor st.sockets p.receiverId with
  | some _ =>
    ({ st with messages := st.messages.map (autoDeliverStep p.msgId now) },
     [ack, upd,
      Emit.newMessage p.receiverId p.msgId p.content p.senderUser p.chatId
        p.receiverId,
      Emit.messageDelivered p.senderUser p.msgId now,
      ack])
  | none => (st, [ack, upd, ack])

/-- The enhanced `send_message` socket handler run to completion with no
interleaved event: phase 1 followed immediately by phase 2. -/
def sockSendMessage (st : ServerState) (senderSock : Socket)
    (receiverId : Option Nat) (content : Option String) (now : Nat)
    (saveOk : Bool) : ServerState × List Emit :=
  match sockSendPhase1 st senderSock receiverId content now saveOk with
  | (st1, some p, e1) =>
    let r := sockSendPhase2 st1 p now
    (r.1, e1 ++ r.2)
  | (st1, none, e1) => (st1, e1)

/-- Response of `POST /api/messages/send`. -/
inductive HttpSendResp
  | badRequest
  | accepted (messageId chatId : Nat)
  | serverError
deriving DecidableEq, Repr

/-- `POST /api/messages/send` (the stateless fallback): validate with a
400 error, resolve the chat, save the message (schema defaults give it
status `sent` and null stamps), and answer with the ids; a persistence
failure is caught and answered with a 500 error. No push and no delivery
update are attempted on this path. -/
def httpSendMessage (st : ServerState) (senderId : Nat)
    (receiverId : Option Nat) (content : Option String) (now : Nat)
    (saveOk : Bool) : ServerState × HttpSendResp :=
  match receiverId, content with
  | some rid, some c =>
    if c = "" then (st, HttpSendResp.badRequest)
    else
      let fc := findOrCreateChat st.chats senderId rid now st.nextChatId
      if saveOk then
        let msg : Message :=
          { msgId := st.nextMsgId, chatId := fc.1.chatId, sender := senderId,
            receiver := rid, content := jsTrim c, timestamp := now,
            status := MsgStatus.sent, deliveredAt := none, readAt := none }
        ({ st with
            chats := fc.2.1, nextChatId := fc.2.2,
            messages := st.messages ++ [msg], nextMsgId := st.nextMsgId + 1 },
         HttpSendResp.accepted msg.msgId fc.1.chatId)
      else
        ({ st with chats := fc.2.1, nextChatId := fc.2.2 },
         HttpSendResp.serverError)
  | _, _ => (st, HttpSendResp.badRequest)

/-- Response of `POST /api/messages/:id/delivered`. -/
inductive AckResp
  | okDelivered (messageId : Nat)
  | alreadyUpdated (messageId : Nat) (current : MsgStatus)
  | notFound
deriving DecidableEq, Repr

/-- `POST /api/messages/:id/delivered`: conditional `findOneAndUpdate`
restricted to `status: 'sent'` (see `deliveredAckStep`); if nothing
matched, report the message's current status (or 404); on success notify
the sender's socket, if connected, with `message_delivered`. -/
def deliveredAckEndpoint (st : ServerState) (messageId now : Nat) :
    ServerState × List Emit × AckResp :=
  match st.messages.find?
      (fun m => decide (m.msgId = messageId ∧ m.status = MsgStatus.sent)) with
  | some m0 =>
    let st' := { st with
      messages := st.messages.map (deliveredAckStep messageId now) }
    let emits :=
      match findSocketFor st.sockets m0.sender with
      | some _ => [Emit.messageDelivered m0.sender messageId now]
      | none => []
    (st', emits, AckResp.okDelivered messageId)
  | none =>
    match st.messages.find? (fun m => decide (m.msgId = messageId)) with
    | some m => (st, [], AckResp.alreadyUpdated messageId m.status)
    | none => (st, [], AckResp.notFound)

/-- Relation used by the `.sort({ timestamp: -1 })` query modifier:
newest first. -/
def tsDesc (a b : Message) : Prop := b.timestamp ≤ a.timestamp

instance : DecidableRel tsDesc := fun a b => Nat.decLe b.timestamp a.timestamp

/-- Filter of `Message.find({ chatId, receiver, status: 'read' })`:
every message of the chat addressed to the reader now at status `read`. -/
def readMessagesFor (msgs : List Message) (cid reader : Nat) :
    List Message :=
  msgs.filter (fun m =>
    decide (m.chatId = cid ∧ m.receiver = reader ∧
      m.status = MsgStatus.read))

/-- `Message.find({ chatId, receiver, status: 'read' })
.sort({ timestamp: -1 }).limit(100)` of the socket read handler. -/
def readMessagesQuery (msgs : List Message) (cid reader : Nat) :
    List Message :=
  ((readMessagesFor msgs cid reader).insertionSort tsDesc).take 100

/-- The socket `message_read` handler (`server.js`, enhanced variant):
1. bump every delivered message of this chat addressed to the reader to
   `read`;
2. query the recent (≤ 1 minute old) messages still at `sent`; if any
   exist, bump them `sent → delivered` and then `delivered → read`
   (the latter keyed on a `deliveredAt` within the last 5 seconds);
3. re-query every message of the chat addressed to the reader now at
   status `read` (newest 100) and emit one `message_read` notification per
   distinct sender that has a live socket, whose `messageCount` is that
   sender's share of the re-queried messages.
JavaScript's `[...new Set(xs)]` keeps first occurrences; `List.dedup`
keeps last occurrences — only the order of the emitted notifications
differs, which nothing here depends on. -/
def sockReadHandler (st : ServerState) (readerSock : Socket)
    (cid now : Nat) : ServerState × List Emit :=
  let reader := readerSock.userId
  let msgs1 := st.messages.map (deliveredToReadStep cid reader now)
  let recent := msgs1.filter (isRecentSent cid reader now)
  let msgs3 :=
    if recent.length > 0 then
      (msgs1.map (graceDeliverStep cid reader now)).map
        (freshDeliveredToReadStep cid reader now)
    else msgs1
  let updated := readMessagesQuery msgs3 cid reader
  let senderIds := (updated.map (fun m => m.sender)).dedup
  let emits := senderIds.filterMap (fun sid =>
    match findSocketFor st.sockets sid with
    | some _ => some (Emit.messageRead sid cid reader
        ((updated.filter (fun m => decide (m.sender = sid))).length))
    | none => none)
  ({ st with messages := msgs3 }, emits)

/-- Response of `POST /api/messages/read`. -/
structure HttpReadResp where
  deliveredCount : Nat
  readCount : Nat
  totalCount : Nat
deriving DecidableEq, Repr

/-- `POST /api/messages/read` (the stateless read-receipt path):
step 1 bumps recent `sent` messages to `delivered`, step 2 bumps every
`delivered` message to `read`; the chat's other participant is then
notified over their socket, if connected, with
`messageCount = readCount + deliveredCount` — with no check that anything
was actually modified. -/
def httpReadHandler (st : ServerState) (userId cid now : Nat) :
    ServerState × List Emit × HttpReadResp :=
  let cnt1 := st.messages.countP (fun m =>
    decide (m.chatId = cid ∧ m.receiver = userId ∧
      m.status = MsgStatus.sent ∧ now - 60000 ≤ m.timestamp))
  let msgs1 := st.messages.map (graceDeliverStep cid userId now)
  let cnt2 := msgs1.countP (fun m =>
    decide (m.chatId = cid ∧ m.receiver = userId ∧
      m.status = MsgStatus.delivered))
  let msgs2 := msgs1.map (deliveredToReadStep cid userId now)
  let emits :=
    match st.chats.find? (fun c => decide (c.chatId = cid)) with
    | some chat =>
      match chat.participants.find? (fun p => decide (p ≠ userId)) with
      | some senderId =>
        match findSocketFor st.sockets senderId with
        | some _ => [Emit.messageRead senderId cid userId (cnt2 + cnt1)]
        | none => []
      | none => []
    | none => []
  ({ st with messages := msgs2 }, emits,
   { deliveredCount := cnt1, readCount := cnt2, totalCount := cnt2 + cnt1 })

/-- `_updateUserOnlineStatus`: `global.onlineUsers.add(userId)` (a JS
`Set`: adding an existing element is a no-op). -/
def updateUserOnlineStatus (st : ServerState) (userId : Nat) : ServerState :=
  { st with onlineUsers :=
      if userId ∈ st.onlineUsers then st.onlineUsers
      else st.onlineUsers ++ [userId] }

/-- `_updateUserOfflineStatus`: `global.onlineUsers.delete(userId)`.
The function receives only the user id — no channel handle is compared. -/
def updateUserOfflineStatus (st : ServerState) (userId : Nat) : ServerState :=
  { st with onlineUsers := st.onlineUsers.filter (fun u => decide (u ≠ userId)) }

/-- A socket connection being established: the socket joins
`io.sockets.sockets` and `_updateUserOnlineStatus` runs for its user. -/
def handleConnect (st : ServerState) (sock : Socket) : ServerState :=
  updateUserOnlineStatus { st with sockets := st.sockets ++ [sock] }
    sock.userId

/-- The `disconnect` event: the socket leaves `io.sockets.sockets` and
`_updateUserOfflineStatus(socket.userId)` runs unconditionally. -/
def handleDisconnect (st : ServerState) (sock : Socket) : ServerState :=
  updateUserOfflineStatus
    { st with sockets := st.sockets.filter (fun s => decide (s.sockId ≠ sock.sockId)) }
    sock.userId

/-- `GET /api/users/:userId/status`: reports online iff
`global.onlineUsers.has(userId)`. -/
def userStatusEndpoint (st : ServerState) (userId : Nat) : Bool :=
  st.onlineUsers.contains userId

/-- The `send_message` handler variant of `routes/auth.js` (lines
1577–1600): the message is built with `deliveredAt: new Date()`
(“Mark as delivered when saved”) while `status` is left to its schema
default `sent`; the sender is acknowledged and, if the receiver's socket
is live, the message is pushed (no database status update on this
variant; the trailing `message_delivered` status echo carries no field a
claim refers to and is omitted). -/
def authSockSendMessage (st : ServerState) (senderSock : Socket)
    (receiverId : Option Nat) (content : Option String) (now : Nat)
    (saveOk : Bool) : ServerState × List Emit :=
  match receiverId, content with
  | some rid, some c =>
    if c = "" then (st, [])
    else
      let fc := findOrCreateChat st.chats senderSock.userId rid now st.nextChatId
      if saveOk then
        let msg : Message :=
          { msgId := st.nextMsgId, chatId := fc.1.chatId,
            sender := senderSock.userId, receiver := rid,
            content := jsTrim c, timestamp := now,
            status := MsgStatus.sent, deliveredAt := some now, readAt := none }
        let st1 := { st with
          chats := fc.2.1, nextChatId := fc.2.2,
          messages := st.messages ++ [msg], nextMsgId := st.nextMsgId + 1 }
        let ack := Emit.messageSent senderSock.userId true (some msg.msgId)
          (some fc.1.chatId) (some msg.content)
        match findSocketFor st1.sockets rid with
        | some _ =>
          (st1, [ack, Emit.newMessage rid msg.msgId msg.content
            senderSock.userId fc.1.chatId rid])
        | none => (st1, [ack])
      else
        ({ st with chats := fc.2.1, nextChatId := fc.2.2 },
         [Emit.messageSent senderSock.userId false none none none])
  | _, _ => (st, [])

/-- The operations of the enhanced server variant, each an event handler
run to completion. -/
inductive ServerOp
  | opConnect (sock : Socket)
  | opDisconnect (sock : Socket)
  | opSockSend (senderSock : Socket) (receiverId : Option Nat)
      (content : Option String) (now : Nat) (saveOk : Bool)
  | opHttpSend (senderId : Nat) (receiverId : Option Nat)
      (content : Option String) (now : Nat) (saveOk : Bool)
  | opDeliveredAck (messageId now : Nat)
  | opSockRead (readerSock : Socket) (cid now : Nat)
  | opHttpRead (userId cid now : Nat)

/-- State transition of one operation. -/
def applyOp (st : ServerState) : ServerOp → ServerState
  | .opConnect s => handleConnect st s
  | .opDisconnect s => handleDisconnect st s
  | .opSockSend s r c n ok => (sockSendMessage st s r c n ok).1
  | .opHttpSend uid r c n ok => (httpSendMessage st uid r c n ok).1
  | .opDeliveredAck mid n => (deliveredAckEndpoint st mid n).1
  | .opSockRead s cid n => (sockReadHandler st s cid n).1
  | .opHttpRead uid cid n => (httpReadHandler st uid cid n).1

/-- A run of the server: a sequence of handler invocations. -/
def applyOps (st : ServerState) (ops : List ServerOp) : ServerState :=
  ops.foldl applyOp st

/-- The timestamp invariant of the spec's data model: `deliveredAt` is set
iff the status is `delivered` or `read`, and `readAt` is set iff the
status is `read`. -/
def statusTimestampsConsistent (m : Message) : Prop :=
  (m.deliveredAt ≠ none ↔
    (m.status = MsgStatus.delivered ∨ m.status = MsgStatus.read)) ∧
  (m.readAt ≠ none ↔ m.status = MsgStatus.read)

instance (m : Message) : Decidable (statusTimestampsConsistent m) := by
  unfold statusTimestampsConsistent; infer_instance

/-- Whether an emitted event is a read notification addressed to `sid`. -/
def emitReadTo (sid : Nat) : Emit → Bool
  | .messageRead t _ _ _ => t = sid
  | _ => false

/-- The content field carried by an emitted event, when it has one. -/
def emitContent : Emit → Option String
  | .messageSent _ _ _ _ co => co
  | .chatUpdated _ _ lm => some lm
  | .newMessage _ _ co _ _ _ => some co
  | _ => none

/-- Whether an emitted event pushes a new message to a receiver or
notifies a sender of a delivery (the events absent on the offline path). -/
def isPushOrDelivery : Emit → Bool
  | .newMessage _ _ _ _ _ _ => true
  | .messageDelivered _ _ _ => true
  | _ => false

/-! ## Helper lemmas -/

/-- Mapping a function that fixes every element of a list is the identity. -/
theorem listMapFixed {α : Type} (f : α → α) :
    ∀ (l : List α), (∀ a ∈ l, f a = a) → l.map f = l := by
  intro l
  induction l with
  | nil => intro _; rfl
  | cons a t ih =>
    intro h
    simp only [List.map_cons]
    rw [h a (by simp), ih (fun x hx => h x (by simp [hx]))]

/-- An element never satisfying the kept predicate is not contained in the
filtered list. -/
theorem containsFilterNe (l : List Nat) (u : Nat) :
    (l.filter (fun x => decide (x ≠ u))).contains u = false := by
  induction l with
  | nil => rfl
  | cons a t ih =>
    by_cases h : a = u
    · rw [List.filter_cons, if_neg (by simp [h])]
      exact ih
    · rw [List.filter_cons, if_pos (by simp [h]), List.contains_cons, ih]
      simp [beq_iff_eq, Ne.symm h]

/-- The pair filter of the conversation lookup is symmetric in the two
users. -/
theorem pairMatchSymm (a b : Nat) (c : Chat) :
    pairMatch a b c = pairMatch b a c := by
  unfold pairMatch
  rw [Bool.and_comm (c.participants.contains a) (c.participants.contains b)]

/-! ## C8 — presence eviction on disconnect -/

/-- C8 counterexample: user 7 connects with socket 1, reconnects with
socket 2, then the stale disconnect of socket 1 arrives. The status lookup
reports the user offline even though the newer socket 2 is still live —
refuting the claim that a stale disconnect leaves the newer presence entry
in place. -/
theorem C8_stale_disconnect_evicts :
    userStatusEndpoint
        (handleDisconnect
          (handleConnect (handleConnect initialState ⟨1, 7⟩) ⟨2, 7⟩) ⟨1, 7⟩) 7
      = false ∧
    (handleDisconnect
        (handleConnect (handleConnect initialState ⟨1, 7⟩) ⟨2, 7⟩)
        ⟨1, 7⟩).sockets
      = [⟨2, 7⟩] := by decide

/-- C8 (amended): the disconnect handler removes the user's presence entry
unconditionally — it is keyed on the user id alone and compares no channel
handle — so after any disconnect event for a user the status lookup
reports that user offline, whatever other connections of theirs remain. -/
theorem C8_disconnect_unconditional (st : ServerState) (sock : Socket) :
    userStatusEndpoint (handleDisconnect st sock) sock.userId = false := by
  simp only [userStatusEndpoint, handleDisconnect, updateUserOfflineStatus]
  exact containsFilterNe st.onlineUsers sock.userId

/-! ## C1 — monotonicity of the status-advancement operations -/

/-- C1 counterexample: sender 10 and receiver 20 are both connected. The
send handler saves the message (phase 1) and suspends at its `populate`
await; the receiver's `message_read` signal is processed in that gap and
advances the fresh message to `read`; then the send handler resumes
(phase 2) and its unconditional automatic delivery update overwrites the
status back to `delivered` — a backward move, refuting the claim that
every advancement path is a forward-only conditional update. -/
theorem C1_auto_deliver_regresses :
    (sockSendPhase1 { initialState with sockets := [⟨1, 10⟩, ⟨2, 20⟩] }
        ⟨1, 10⟩ (some 20) (some "hi") 100000 true).2.1
      = some ⟨0, 0, 10, 20, "hi", 100000⟩ ∧
    (∃ m ∈ (sockReadHandler
        (sockSendPhase1 { initialState with sockets := [⟨1, 10⟩, ⟨2, 20⟩] }
          ⟨1, 10⟩ (some 20) (some "hi") 100000 true).1
        ⟨2, 20⟩ 0 100000).1.messages,
      m.msgId = 0 ∧ m.status = MsgStatus.read) ∧
    (∃ m ∈ (sockSendPhase2
        (sockReadHandler
          (sockSendPhase1 { initialState with sockets := [⟨1, 10⟩, ⟨2, 20⟩] }
            ⟨1, 10⟩ (some 20) (some "hi") 100000 true).1
          ⟨2, 20⟩ 0 100000).1
        ⟨0, 0, 10, 20, "hi", 100000⟩ 100000).1.messages,
      m.msgId = 0 ∧ m.status = MsgStatus.delivered ∧
        m.readAt = some 100000 ∧
        MsgStatus.rank m.status < MsgStatus.rank MsgStatus.read) := by
  decide

/-- C1 (amended): the HTTP delivery acknowledgment and every update of the
two read-reconciliation paths are conditional: on each message they either
strictly advance the status or change nothing at all (status and both
stamps untouched). Only the push path's automatic delivery update
(`autoDeliverStep`) lacks this property. -/
theorem C1_conditional_advancement_monotone (mid cid reader now : Nat)
    (m : Message) :
    (deliveredAckStep mid now m = m ∨
      MsgStatus.rank m.status <
        MsgStatus.rank (deliveredAckStep mid now m).status) ∧
    (deliveredToReadStep cid reader now m = m ∨
      MsgStatus.rank m.status <
        MsgStatus.rank (deliveredToReadStep cid reader now m).status) ∧
    (graceDeliverStep cid reader now m = m ∨
      MsgStatus.rank m.status <
        MsgStatus.rank (graceDeliverStep cid reader now m).status) ∧
    (freshDeliveredToReadStep cid reader now m = m ∨
      MsgStatus.rank m.status <
        MsgStatus.rank (freshDeliveredToReadStep cid reader now m).status) := by
  refine ⟨?_, ?_, ?_, ?_⟩
  · unfold deliveredAckStep
    split
    · rename_i h
      right
      simp [MsgStatus.rank, h.2]
    · left; rfl
  · unfold deliveredToReadStep
    split
    · rename_i h
      right
      simp [MsgStatus.rank, h.2.2]
    · left; rfl
  · unfold graceDeliverStep
    split
    · rename_i h
      right
      simp [MsgStatus.rank, h.2.2.1]
    · left; rfl
  · unfold freshDeliveredToReadStep
    split
    · rename_i h
      right
      simp [MsgStatus.rank, h.2.2.1]
    · left; rfl

/-! ## C3 — at most one conversation per unordered pair -/

/-- C3 counterexample: two concurrent `findOrCreateChat` calls for the
pair {1, 2} (in the two orders) against an empty collection, with both
`findOne` queries completing before either `save()`. Both lookups miss
and both calls create, leaving two conversation records for the same
unordered pair — refuting the claim that concurrent resolution never
creates a second record. -/
theorem C3_race_duplicate_pair :
    (findOrCreateChatRace [] 1 2 5 0).countP (pairMatch 1 2) = 2 := by decide

/-- C3 (amended): sequential resolution is order-insensitive and
duplicate-free: starting from a collection with no record for the pair,
one call creates exactly one record, and a subsequent call with the users
in either order returns that same record and creates nothing. -/
theorem C3_sequential_single_record (chats : List Chat)
    (a b now now' n : Nat) (h : chats.countP (pairMatch a b) = 0) :
    ((findOrCreateChat chats a b now n).2.1).countP (pairMatch a b) = 1 ∧
    findOrCreateChat (findOrCreateChat chats a b now n).2.1 b a now'
        (findOrCreateChat chats a b now n).2.2
      = ((findOrCreateChat chats a b now n).1,
         (findOrCreateChat chats a b now n).2.1,
         (findOrCreateChat chats a b now n).2.2) := by
  have hnone : chatLookup chats a b = none := by
    unfold chatLookup
    rw [List.find?_eq_none]
    intro x hx
    have := List.countP_eq_zero.mp h x hx
    simpa using this
  have hmatch : pairMatch a b (newChat a b now n) = true := by
    simp [pairMatch, newChat]
  have hfc : findOrCreateChat chats a b now n
      = (newChat a b now n, chats ++ [newChat a b now n], n + 1) := by
    unfold findOrCreateChat
    rw [hnone]
  rw [hfc]
  constructor
  · rw [List.countP_append, h, List.countP_cons, List.countP_nil, hmatch]
    simp
  · have hnone' : (chats ++ [newChat a b now n]).find? (pairMatch b a)
        = some (newChat a b now n) := by
      rw [List.find?_append]
      have h1 : chats.find? (pairMatch b a) = none := by
        rw [List.find?_eq_none]
        intro x hx
        have := List.countP_eq_zero.mp h x hx
        rw [← pairMatchSymm a b x]
        simpa using this
      rw [h1]
      simp [List.find?_cons, ← pairMatchSymm a b, hmatch]
    unfold findOrCreateChat chatLookup
    rw [hnone']

/-- C3 witness: the amended statement at the empty collection for the
pair {1, 2}. -/
theorem C3_sequential_single_record_witness :
    ([] : List Chat).countP (pairMatch 1 2) = 0 ∧
    (((findOrCreateChat [] 1 2 3 0).2.1).countP (pairMatch 1 2) = 1 ∧
     findOrCreateChat (findOrCreateChat [] 1 2 3 0).2.1 2 1 4
         (findOrCreateChat [] 1 2 3 0).2.2
       = ((findOrCreateChat [] 1 2 3 0).1,
          (findOrCreateChat [] 1 2 3 0).2.1,
          (findOrCreateChat [] 1 2 3 0).2.2)) :=
  ⟨by decide, C3_sequential_single_record [] 1 2 3 4 0 (by decide)⟩

/-! ## C4 / C7 — the `routes/auth.js` send variant -/

/-- C4 counterexample: in the `routes/auth.js` send variant, user 5
submits "yo" to user 6 who has no connected socket. No push happens, the
stored message is at status `sent` — but its `deliveredAt` is stamped
with the save time rather than null, refuting the claim that an offline
submission yields a null `deliveredAt`. -/
theorem C4_variant_offline_nonnull_stamp :
    (∃ m ∈ (authSockSendMessage
        (⟨[], [], [⟨1, 5⟩], [5], 0, 0⟩ : ServerState)
        ⟨1, 5⟩ (some 6) (some "yo") 4242 true).1.messages,
      m.msgId = 0 ∧ m.status = MsgStatus.sent ∧ m.deliveredAt = some 4242) ∧
    (∀ e ∈ (authSockSendMessage
        (⟨[], [], [⟨1, 5⟩], [5], 0, 0⟩ : ServerState)
        ⟨1, 5⟩ (some 6) (some "yo") 4242 true).2,
      isPushOrDelivery e = false) := by decide

/-- C7 counterexample: the same `routes/auth.js` submission stores a
message whose `deliveredAt` is non-null while its status is `sent`,
refuting the claimed biconditional between a non-null `deliveredAt` and a
status in {delivered, read}. -/
theorem C7_variant_breaks_stamp_iff :
    ∃ m ∈ (authSockSendMessage
        (⟨[], [], [⟨3, 8⟩], [8], 0, 0⟩ : ServerState)
        ⟨3, 8⟩ (some 9) (some "hello") 777 true).1.messages,
      m.status = MsgStatus.sent ∧ m.deliveredAt = some 777 ∧
        ¬ statusTimestampsConsistent m := by decide

/-! ## C5 — idempotence of the read reconciliation -/

/-- C5 counterexample: chat 0 between users 5 (online, socket 1) and 7;
one message from 5 to 7 already at `delivered`. The first HTTP read call
by user 7 transitions it to `read`; the second call transitions nothing
(total count 0) — yet still emits a `message_read` notification with
`messageCount` 0 to sender 5, refuting the claim that a second invocation
emits no read notifications. -/
theorem C5_second_call_still_notifies :
    (httpReadHandler
        (httpReadHandler
          (⟨[⟨0, [5, 7], 0, 0⟩],
            [⟨0, 0, 5, 7, "m", 0, MsgStatus.delivered, some 1, none⟩],
            [⟨1, 5⟩], [5], 1, 1⟩ : ServerState) 7 0 100000).1
        7 0 100000).2.2.totalCount = 0 ∧
    (httpReadHandler
        (httpReadHandler
          (⟨[⟨0, [5, 7], 0, 0⟩],
            [⟨0, 0, 5, 7, "m", 0, MsgStatus.delivered, some 1, none⟩],
            [⟨1, 5⟩], [5], 1, 1⟩ : ServerState) 7 0 100000).1
        7 0 100000).2.1 = [Emit.messageRead 5 0 7 0] := by decide

/-! ## C6 — read-notification counts -/

/-- C6 counterexample: sender 5 (online) has one message to reader 7
already `read` by an earlier call and one at `delivered`. The read signal
newly transitions exactly one message, but the emitted notification
reports `messageCount` 2 — the total of the sender's read messages,
including the previously read one — refuting the claim that the count
covers only the messages newly transitioned by this call. -/
theorem C6_stale_message_count :
    (sockReadHandler
        (⟨[⟨0, [5, 7], 0, 0⟩],
          [⟨0, 0, 5, 7, "a", 0, MsgStatus.read, some 1, some 2⟩,
           ⟨1, 0, 5, 7, "b", 3, MsgStatus.delivered, some 4, none⟩],
          [⟨1, 5⟩, ⟨2, 7⟩], [5, 7], 1, 2⟩ : ServerState)
        ⟨2, 7⟩ 0 100000).2 = [Emit.messageRead 5 0 7 2] ∧
    ((sockReadHandler
        (⟨[⟨0, [5, 7], 0, 0⟩],
          [⟨0, 0, 5, 7, "a", 0, MsgStatus.read, some 1, some 2⟩,
           ⟨1, 0, 5, 7, "b", 3, MsgStatus.delivered, some 4, none⟩],
          [⟨1, 5⟩, ⟨2, 7⟩], [5, 7], 1, 2⟩ : ServerState)
        ⟨2, 7⟩ 0 100000).1.messages.countP
          (fun m => decide (m.status = MsgStatus.read)))
      = ((⟨[⟨0, [5, 7], 0, 0⟩],
          [⟨0, 0, 5, 7, "a", 0, MsgStatus.read, some 1, some 2⟩,
           ⟨1, 0, 5, 7, "b", 3, MsgStatus.delivered, some 4, none⟩],
          [⟨1, 5⟩, ⟨2, 7⟩], [5, 7], 1, 2⟩ : ServerState).messages.countP
          (fun m => decide (m.status = MsgStatus.read))) + 1 := by decide

/-! ## C9 — submission responses -/

/-- C9 counterexample: over the push channel, a submission with empty
content and one with a missing receiver are both dropped without any
event emitted back to the sender — refuting the claim that a validation
failure is reported to the sender on the push path. -/
theorem C9_socket_validation_silent :
    (sockSendMessage initialState ⟨1, 5⟩ (some 6) (some "") 3 true).2 = [] ∧
    (sockSendMessage initialState ⟨1, 5⟩ none (some "hi") 3 true).2 = [] := by
  decide

/-- C9 (amended): on the HTTP path the sender always receives a response —
a 400 error on a validation failure, the stored ids after persistence, and
a 500 error when persistence fails. On the push path a valid submission
always produces a `message_sent` acknowledgment whose success flag is the
persistence outcome, but an invalid submission (missing receiver or empty
content) produces no response at all. -/
theorem C9_submission_outcomes (st : ServerState) (sock : Socket)
    (uid : Nat) (rid : Option Nat) (c : Option String) (now : Nat)
    (ok : Bool) :
    ((receiverTruthy rid && contentTruthy c) = false →
      (httpSendMessage st uid rid c now ok).2 = HttpSendResp.badRequest ∧
      (sockSendMessage st sock rid c now ok).2 = []) ∧
    ((receiverTruthy rid && contentTruthy c) = true →
      (ok = true → ∃ mid cid,
        (httpSendMessage st uid rid c now ok).2
          = HttpSendResp.accepted mid cid) ∧
      (ok = false →
        (httpSendMessage st uid rid c now ok).2 = HttpSendResp.serverError) ∧
      (∃ mo co cno,
        Emit.messageSent sock.userId ok mo co cno
          ∈ (sockSendMessage st sock rid c now ok).2)) := by
  rcases rid with _ | rid <;> rcases c with _ | c
  · exact ⟨fun _ => ⟨rfl, rfl⟩, fun h => by simp [receiverTruthy] at h⟩
  · exact ⟨fun _ => ⟨rfl, rfl⟩, fun h => by simp [receiverTruthy] at h⟩
  · exact ⟨fun _ => ⟨rfl, rfl⟩, fun h => by simp [contentTruthy] at h⟩
  · by_cases hc : c = ""
    · subst hc
      refine ⟨fun _ => ⟨?_, ?_⟩, fun h => by simp [contentTruthy] at h⟩
      · simp [httpSendMessage]
      · simp [sockSendMessage, sockSendPhase1]
    · refine ⟨fun hf => ?_, fun _ => ⟨?_, ?_, ?_⟩⟩
      · exfalso
        simp [receiverTruthy, contentTruthy, hc] at hf
      · intro hok
        subst hok
        exact ⟨st.nextMsgId,
          (findOrCreateChat st.chats uid rid now st.nextChatId).1.chatId,
          by simp [httpSendMessage, hc]⟩
      · intro hok
        subst hok
        simp [httpSendMessage, hc]
      · cases hok : ok with
        | false =>
          refine ⟨none, none, none, ?_⟩
          simp [sockSendMessage, sockSendPhase1, hc]
        | true =>
          refine ⟨some st.nextMsgId,
            some (findOrCreateChat st.chats sock.userId rid now
              st.nextChatId).1.chatId,
            some (jsTrim c), ?_⟩
          cases hs : findSocketFor st.sockets rid with
          | some s => simp [sockSendMessage, sockSendPhase1, sockSendPhase2,
              hc, hs]
          | none => simp [sockSendMessage, sockSendPhase1, sockSendPhase2,
              hc, hs]

/-- C9 witness: the amended statement instantiated at a concrete empty
server, for an invalid submission (empty content) and for a valid one. -/
theorem C9_submission_outcomes_witness :
    ((receiverTruthy (some 6) && contentTruthy (some "")) = false ∧
      (httpSendMessage initialState 5 (some 6) (some "") 3 true).2
          = HttpSendResp.badRequest ∧
        (sockSendMessage initialState ⟨1, 5⟩ (some 6) (some "") 3 true).2
          = []) ∧
    ((receiverTruthy (some 6) && contentTruthy (some "hi")) = true ∧
      ((true = true → ∃ mid cid,
        (httpSendMessage initialState 5 (some 6) (some "hi") 3 true).2
          = HttpSendResp.accepted mid cid) ∧
      (true = false →
        (httpSendMessage initialState 5 (some 6) (some "hi") 3 true).2
          = HttpSendResp.serverError) ∧
      (∃ mo co cno,
        Emit.messageSent 5 true mo co cno
          ∈ (sockSendMessage initialState ⟨1, 5⟩ (some 6) (some "hi") 3
              true).2))) :=
  ⟨⟨by decide,
    (C9_submission_outcomes initialState ⟨1, 5⟩ 5 (some 6) (some "") 3
      true).1 (by decide)⟩,
   ⟨by decide,
    (C9_submission_outcomes initialState ⟨1, 5⟩ 5 (some 6) (some "hi") 3
      true).2 (by decide)⟩⟩

/-! ## C10 — content is stored and echoed trimmed -/

/-- C10: on both transports a valid submission stores the message with the
submitted content stripped of leading and trailing whitespace, and every
content-bearing payload emitted by the push-path handler (the
acknowledgments, the chat-list update and the real-time push) carries that
same trimmed content. -/
theorem C10_content_trimmed (st : ServerState) (sock : Socket)
    (rid : Nat) (c : String) (now : Nat) (hc : ¬ c = "") :
    (∃ m ∈ (sockSendMessage st sock (some rid) (some c) now true).1.messages,
        m.msgId = st.nextMsgId ∧ m.content = jsTrim c) ∧
    (∀ e ∈ (sockSendMessage st sock (some rid) (some c) now true).2,
        emitContent e = none ∨ emitContent e = some (jsTrim c)) ∧
    (∃ m ∈ (httpSendMessage st sock.userId (some rid) (some c) now
          true).1.messages,
        m.msgId = st.nextMsgId ∧ m.content = jsTrim c) := by
  refine ⟨?_, ?_, ?_⟩
  · cases hs : findSocketFor st.sockets rid with
    | some s =>
      simp only [sockSendMessage, sockSendPhase1, sockSendPhase2, if_neg hc,
        if_true]
      rw [hs]
      simp [List.mem_append, List.mem_map, autoDeliverStep]
      exact ⟨_, Or.inr rfl, rfl, rfl⟩
    | none =>
      simp only [sockSendMessage, sockSendPhase1, sockSendPhase2, if_neg hc,
        if_true]
      rw [hs]
      simp [List.mem_append]
      exact ⟨_, Or.inr rfl, rfl, rfl⟩
  · intro e he
    cases hs : findSocketFor st.sockets rid with
    | some s =>
      simp only [sockSendMessage, sockSendPhase1, sockSendPhase2, if_neg hc,
        if_true] at he
      rw [hs] at he
      simp only [List.nil_append, List.mem_cons, List.not_mem_nil,
        or_false] at he
      rcases he with h | h | h | h | h <;> subst h <;> simp [emitContent]
    | none =>
      simp only [sockSendMessage, sockSendPhase1, sockSendPhase2, if_neg hc,
        if_true] at he
      rw [hs] at he
      simp only [List.nil_append, List.mem_cons, List.not_mem_nil,
        or_false] at he
      rcases he with h | h | h <;> subst h <;> simp [emitContent]
  · simp only [httpSendMessage, if_neg hc, if_true]
    simp [List.mem_append]
    exact ⟨_, Or.inr rfl, rfl, rfl⟩

/-- C10 witness: submitting content with surrounding whitespace stores and
echoes the trimmed text, which differs from the text as submitted. -/
theorem C10_content_trimmed_witness :
    (¬ " hi " = "" ∧
      ((∃ m ∈ (sockSendMessage initialState ⟨1, 5⟩ (some 6) (some " hi ") 3
            true).1.messages,
          m.msgId = 0 ∧ m.content = jsTrim " hi ") ∧
       (∀ e ∈ (sockSendMessage initialState ⟨1, 5⟩ (some 6) (some " hi ") 3
            true).2,
          emitContent e = none ∨ emitContent e = some (jsTrim " hi ")) ∧
       (∃ m ∈ (httpSendMessage initialState 5 (some 6) (some " hi ") 3
            true).1.messages,
          m.msgId = 0 ∧ m.content = jsTrim " hi "))) ∧
    jsTrim " hi " = "hi" ∧ ¬ jsTrim " hi " = " hi " :=
  ⟨⟨by decide,
    C10_content_trimmed initialState ⟨1, 5⟩ 6 " hi " 3 (by decide)⟩,
   by decide, by decide⟩

/-! ## C2 — grace-window bump on a read signal -/

/-- C2: over either transport, a message addressed to the reader in this
conversation that is still at `sent` and less than one minute old when the
read signal is processed ends at status `read`, with both `deliveredAt`
and `readAt` stamped with the time of the read signal. -/
theorem C2_grace_window_bump (st : ServerState) (rsock : Socket)
    (cid now : Nat) (m : Message) (hm : m ∈ st.messages)
    (hcid : m.chatId = cid) (hrcv : m.receiver = rsock.userId)
    (hst : m.status = MsgStatus.sent) (hage : now < m.timestamp + 60000) :
    (∃ m' ∈ (sockReadHandler st rsock cid now).1.messages,
        m'.msgId = m.msgId ∧ m'.status = MsgStatus.read ∧
        m'.deliveredAt = some now ∧ m'.readAt = some now) ∧
    (∃ m' ∈ (httpReadHandler st rsock.userId cid now).1.messages,
        m'.msgId = m.msgId ∧ m'.status = MsgStatus.read ∧
        m'.deliveredAt = some now ∧ m'.readAt = some now) := by
  have hrec : now - 60000 ≤ m.timestamp := by omega
  have hg : graceDeliverStep cid rsock.userId now m
      = { m with
          status := MsgStatus.delivered, deliveredAt := some now } := by
    unfold graceDeliverStep
    rw [if_pos ⟨hcid, hrcv, hst, hrec⟩]
  constructor
  · have h1 : deliveredToReadStep cid rsock.userId now m = m := by
      unfold deliveredToReadStep
      rw [if_neg (by simp [hst])]
    have hf : freshDeliveredToReadStep cid rsock.userId now
          { m with
            status := MsgStatus.delivered, deliveredAt := some now }
        = { m with
            status := MsgStatus.read, deliveredAt := some now,
            readAt := some now } := by
      unfold freshDeliveredToReadStep
      rw [if_pos]
      refine ⟨hcid, hrcv, rfl, ?_⟩
      simp [stampGte]
    have hm1 : m ∈ st.messages.map
        (deliveredToReadStep cid rsock.userId now) := by
      rw [← h1]
      exact List.mem_map_of_mem _ hm
    have hrecent : isRecentSent cid rsock.userId now m = true := by
      simp [isRecentSent, hcid, hrcv, hst, hrec]
    have hmem : m ∈ (st.messages.map
          (deliveredToReadStep cid rsock.userId now)).filter
        (isRecentSent cid rsock.userId now) :=
      List.mem_filter.mpr ⟨hm1, hrecent⟩
    have hlen : ((st.messages.map
          (deliveredToReadStep cid rsock.userId now)).filter
        (isRecentSent cid rsock.userId now)).length > 0 :=
      List.length_pos.mpr (List.ne_nil_of_mem hmem)
    refine ⟨{ m with
        status := MsgStatus.read, deliveredAt := some now,
        readAt := some now }, ?_, rfl, rfl, rfl, rfl⟩
    simp only [sockReadHandler]
    rw [if_pos hlen, ← hf, ← hg]
    exact List.mem_map_of_mem _ (List.mem_map_of_mem _ hm1)
  · have hd : deliveredToReadStep cid rsock.userId now
          { m with
            status := MsgStatus.delivered, deliveredAt := some now }
        = { m with
            status := MsgStatus.read, deliveredAt := some now,
            readAt := some now } := by
      unfold deliveredToReadStep
      rw [if_pos ⟨hcid, hrcv, rfl⟩]
    refine ⟨{ m with
        status := MsgStatus.read, deliveredAt := some now,
        readAt := some now }, ?_, rfl, rfl, rfl, rfl⟩
    simp only [httpReadHandler]
    rw [← hd, ← hg]
    exact List.mem_map_of_mem _ (List.mem_map_of_mem _ hm)

/-- C2 witness: one sent message from 5 to 7 in chat 0, created at the
very time the read signal from user 7 arrives: on both transports it ends
read with both stamps equal to the signal time. -/
theorem C2_grace_window_bump_witness :
    ((⟨0, 0, 5, 7, "m", 100000, MsgStatus.sent, none, none⟩ : Message)
        ∈ (⟨[⟨0, [5, 7], 0, 0⟩],
            [⟨0, 0, 5, 7, "m", 100000, MsgStatus.sent, none, none⟩],
            [], [], 1, 1⟩ : ServerState).messages ∧
      (100000 : Nat) < 100000 + 60000) ∧
    ((∃ m' ∈ (sockReadHandler
          (⟨[⟨0, [5, 7], 0, 0⟩],
            [⟨0, 0, 5, 7, "m", 100000, MsgStatus.sent, none, none⟩],
            [], [], 1, 1⟩ : ServerState) ⟨2, 7⟩ 0 100000).1.messages,
        m'.msgId = 0 ∧ m'.status = MsgStatus.read ∧
        m'.deliveredAt = some 100000 ∧ m'.readAt = some 100000) ∧
     (∃ m' ∈ (httpReadHandler
          (⟨[⟨0, [5, 7], 0, 0⟩],
            [⟨0, 0, 5, 7, "m", 100000, MsgStatus.sent, none, none⟩],
            [], [], 1, 1⟩ : ServerState) 7 0 100000).1.messages,
        m'.msgId = 0 ∧ m'.status = MsgStatus.read ∧
        m'.deliveredAt = some 100000 ∧ m'.readAt = some 100000)) := by
  refine ⟨⟨by decide, by decide⟩, ?_⟩
  have h := C2_grace_window_bump
    (⟨[⟨0, [5, 7], 0, 0⟩],
      [⟨0, 0, 5, 7, "m", 100000, MsgStatus.sent, none, none⟩],
      [], [], 1, 1⟩ : ServerState) ⟨2, 7⟩ 0 100000
    ⟨0, 0, 5, 7, "m", 100000, MsgStatus.sent, none, none⟩
    (by decide) (by decide) (by decide) (by decide) (by decide)
  exact h

/-! ## C4 — offline submission on the primary variant -/

/-- C4 (amended): on the enhanced `server.js` push path, submitting to a
receiver with no live socket durably stores the message at status `sent`
with null `deliveredAt` and `readAt`, emits no push and no delivery
notification, and a later connection event (the receiver registering)
leaves every stored message untouched. The `routes/auth.js` variant
instead stamps `deliveredAt` at save time (see its counterexample). -/
theorem C4_offline_submission (st : ServerState) (sock : Socket)
    (rid : Nat) (c : String) (now : Nat) (s' : Socket)
    (hoff : findSocketFor st.sockets rid = none) (hc : ¬ c = "") :
    (∃ m ∈ (sockSendMessage st sock (some rid) (some c) now true).1.messages,
        m.msgId = st.nextMsgId ∧ m.status = MsgStatus.sent ∧
        m.deliveredAt = none ∧ m.readAt = none) ∧
    (∀ e ∈ (sockSendMessage st sock (some rid) (some c) now true).2,
        isPushOrDelivery e = false) ∧
    (handleConnect (sockSendMessage st sock (some rid) (some c) now true).1
        s').messages
      = (sockSendMessage st sock (some rid) (some c) now true).1.messages := by
  refine ⟨?_, ?_, ?_⟩
  · simp only [sockSendMessage, sockSendPhase1, sockSendPhase2, if_neg hc,
      if_true]
    rw [hoff]
    simp [List.mem_append]
    exact ⟨_, Or.inr rfl, rfl, rfl, rfl, rfl⟩
  · intro e he
    simp only [sockSendMessage, sockSendPhase1, sockSendPhase2, if_neg hc,
      if_true] at he
    rw [hoff] at he
    simp only [List.nil_append, List.mem_cons, List.not_mem_nil,
      or_false] at he
    rcases he with h | h | h <;> subst h <;> simp [isPushOrDelivery]
  · simp [handleConnect, updateUserOnlineStatus]

/-- C4 witness: user 5 (socket 1) submits "yo" to offline user 6; the
message is stored at `sent` with null stamps, nothing is pushed, and user
6 connecting afterwards (socket 2) changes no stored message. -/
theorem C4_offline_submission_witness :
    (findSocketFor
        (⟨[], [], [⟨1, 5⟩], [5], 0, 0⟩ : ServerState).sockets 6 = none ∧
      ¬ "yo" = "") ∧
    ((∃ m ∈ (sockSendMessage (⟨[], [], [⟨1, 5⟩], [5], 0, 0⟩ : ServerState)
          ⟨1, 5⟩ (some 6) (some "yo") 9 true).1.messages,
        m.msgId = 0 ∧ m.status = MsgStatus.sent ∧
        m.deliveredAt = none ∧ m.readAt = none) ∧
     (∀ e ∈ (sockSendMessage (⟨[], [], [⟨1, 5⟩], [5], 0, 0⟩ : ServerState)
          ⟨1, 5⟩ (some 6) (some "yo") 9 true).2,
        isPushOrDelivery e = false) ∧
     (handleConnect
          (sockSendMessage (⟨[], [], [⟨1, 5⟩], [5], 0, 0⟩ : ServerState)
            ⟨1, 5⟩ (some 6) (some "yo") 9 true).1 ⟨2, 6⟩).messages
        = (sockSendMessage (⟨[], [], [⟨1, 5⟩], [5], 0, 0⟩ : ServerState)
            ⟨1, 5⟩ (some 6) (some "yo") 9 true).1.messages) :=
  ⟨⟨by decide, by decide⟩,
   C4_offline_submission (⟨[], [], [⟨1, 5⟩], [5], 0, 0⟩ : ServerState)
     ⟨1, 5⟩ 6 "yo" 9 ⟨2, 6⟩ (by decide) (by decide)⟩

/-! ## C5 — a second reconciliation transitions nothing -/

/-- After the HTTP read pair (grace bump then delivered-to-read bump), no
message of the chat addressed to the reader is left at `delivered`, and
any left at `sent` is older than the grace window. -/
theorem httpReadStepsClear (cid r now : Nat) (m : Message) :
    (deliveredToReadStep cid r now (graceDeliverStep cid r now m)).chatId
        = cid ∧
      (deliveredToReadStep cid r now (graceDeliverStep cid r now m)).receiver
        = r →
    (deliveredToReadStep cid r now (graceDeliverStep cid r now m)).status
        ≠ MsgStatus.delivered ∧
    ((deliveredToReadStep cid r now (graceDeliverStep cid r now m)).status
        = MsgStatus.sent →
      ¬ (now - 60000 ≤
        (deliveredToReadStep cid r now (graceDeliverStep cid r now m)).timestamp)) := by
  unfold graceDeliverStep
  by_cases hg1 : m.chatId = cid ∧ m.receiver = r ∧
      m.status = MsgStatus.sent ∧ now - 60000 ≤ m.timestamp
  · rw [if_pos hg1]
    unfold deliveredToReadStep
    rw [if_pos ⟨hg1.1, hg1.2.1, rfl⟩]
    exact fun _ => ⟨by simp, by simp⟩
  · rw [if_neg hg1]
    unfold deliveredToReadStep
    by_cases hg2 : m.chatId = cid ∧ m.receiver = r ∧
        m.status = MsgStatus.delivered
    · rw [if_pos hg2]
      exact fun _ => ⟨by simp, by simp⟩
    · rw [if_neg hg2]
      intro hmatch
      refine ⟨fun hdel => hg2 ⟨hmatch.1, hmatch.2, hdel⟩, ?_⟩
      intro hsent hrec
      exact hg1 ⟨hmatch.1, hmatch.2, hsent, hrec⟩

/-- After the socket read triple (delivered-to-read, grace bump, fresh
delivered-to-read), no message of the chat addressed to the reader is
left at `delivered`, and any left at `sent` is older than the grace
window. -/
theorem sockReadStepsClear (cid r now : Nat) (m : Message) :
    (freshDeliveredToReadStep cid r now (graceDeliverStep cid r now
        (deliveredToReadStep cid r now m))).chatId = cid ∧
      (freshDeliveredToReadStep cid r now (graceDeliverStep cid r now
        (deliveredToReadStep cid r now m))).receiver = r →
    (freshDeliveredToReadStep cid r now (graceDeliverStep cid r now
        (deliveredToReadStep cid r now m))).status ≠ MsgStatus.delivered ∧
    ((freshDeliveredToReadStep cid r now (graceDeliverStep cid r now
        (deliveredToReadStep cid r now m))).status = MsgStatus.sent →
      ¬ (now - 60000 ≤ (freshDeliveredToReadStep cid r now
        (graceDeliverStep cid r now
          (deliveredToReadStep cid r now m))).timestamp)) := by
  unfold deliveredToReadStep
  by_cases hd : m.chatId = cid ∧ m.receiver = r ∧
      m.status = MsgStatus.delivered
  · rw [if_pos hd]
    unfold graceDeliverStep
    rw [if_neg (by simp)]
    unfold freshDeliveredToReadStep
    rw [if_neg (by simp)]
    exact fun _ => ⟨by simp, by simp⟩
  · rw [if_neg hd]
    unfold graceDeliverStep
    by_cases hg : m.chatId = cid ∧ m.receiver = r ∧
        m.status = MsgStatus.sent ∧ now - 60000 ≤ m.timestamp
    · rw [if_pos hg]
      unfold freshDeliveredToReadStep
      rw [if_pos ⟨hg.1, hg.2.1, rfl, by simp [stampGte]⟩]
      exact fun _ => ⟨by simp, by simp⟩
    · rw [if_neg hg]
      unfold freshDeliveredToReadStep
      rw [if_neg (fun hf => hd ⟨hf.1, hf.2.1, hf.2.2.1⟩)]
      intro hmatch
      refine ⟨fun hdel => hd ⟨hmatch.1, hmatch.2, hdel⟩, ?_⟩
      intro hsent hrec
      exact hg ⟨hmatch.1, hmatch.2, hsent, hrec⟩

/-- C5 (amended): a second read reconciliation for the same conversation
and reader, with nothing new in between, transitions no message — the
HTTP endpoint reports a total count of 0 and the socket handler leaves
the message collection unchanged. (Notifications are nevertheless still
emitted; see the counterexample.) -/
theorem C5_second_call_no_transitions (st : ServerState) (sock : Socket)
    (uid cid now now' : Nat) (hnn : now ≤ now') :
    (httpReadHandler (httpReadHandler st uid cid now).1 uid cid
        now').2.2.totalCount = 0 ∧
    (sockReadHandler (sockReadHandler st sock cid now).1 sock cid
        now').1.messages
      = (sockReadHandler st sock cid now).1.messages := by
  constructor
  · have hchar : ∀ x ∈ (httpReadHandler st uid cid now).1.messages,
        x.chatId = cid ∧ x.receiver = uid →
        x.status ≠ MsgStatus.delivered ∧
        (x.status = MsgStatus.sent →
          ¬ (now - 60000 ≤ x.timestamp)) := by
      intro x hx
      simp only [httpReadHandler, List.mem_map] at hx
      obtain ⟨y, ⟨z, hz, rfl⟩, rfl⟩ := hx
      exact httpReadStepsClear cid uid now z
    simp only [httpReadHandler]
    have hc1 : ((httpReadHandler st uid cid now).1.messages).countP
        (fun m => decide (m.chatId = cid ∧ m.receiver = uid ∧
          m.status = MsgStatus.sent ∧ now' - 60000 ≤ m.timestamp)) = 0 := by
      rw [List.countP_eq_zero]
      intro x hx hp
      simp only [decide_eq_true_eq] at hp
      obtain ⟨h1, h2, h3, h4⟩ := hp
      have := (hchar x hx ⟨h1, h2⟩).2 h3
      omega
    have hc2 : (((httpReadHandler st uid cid now).1.messages).map
        (graceDeliverStep cid uid now')).countP
        (fun m => decide (m.chatId = cid ∧ m.receiver = uid ∧
          m.status = MsgStatus.delivered)) = 0 := by
      rw [List.countP_eq_zero]
      intro y hy hp
      simp only [decide_eq_true_eq] at hp
      rw [List.mem_map] at hy
      obtain ⟨x, hx, rfl⟩ := hy
      unfold graceDeliverStep at hp
      by_cases hgx : x.chatId = cid ∧ x.receiver = uid ∧
          x.status = MsgStatus.sent ∧ now' - 60000 ≤ x.timestamp
      · have := (hchar x hx ⟨hgx.1, hgx.2.1⟩).2 hgx.2.2.1
        omega
      · rw [if_neg hgx] at hp
        exact (hchar x hx ⟨hp.1, hp.2.1⟩).1 hp.2.2
    simp only [httpReadHandler] at hc1 hc2
    omega
  · have hchar : ∀ x ∈ (sockReadHandler st sock cid now).1.messages,
        x.chatId = cid ∧ x.receiver = sock.userId →
        x.status ≠ MsgStatus.delivered ∧
        (x.status = MsgStatus.sent →
          ¬ (now - 60000 ≤ x.timestamp)) := by
      intro x hx
      simp only [sockReadHandler] at hx
      by_cases hgr : 0 < ((st.messages.map
          (deliveredToReadStep cid sock.userId now)).filter
          (isRecentSent cid sock.userId now)).length
      · rw [if_pos hgr] at hx
        simp only [List.mem_map] at hx
        obtain ⟨y, ⟨z, ⟨w, hw, rfl⟩, rfl⟩, rfl⟩ := hx
        exact sockReadStepsClear cid sock.userId now w
      · rw [if_neg hgr] at hx
        have hnil : (st.messages.map
            (deliveredToReadStep cid sock.userId now)).filter
            (isRecentSent cid sock.userId now) = [] := by
          rcases Nat.eq_zero_or_pos ((st.messages.map
              (deliveredToReadStep cid sock.userId now)).filter
              (isRecentSent cid sock.userId now)).length with h0 | h0
          · exact List.length_eq_zero.mp h0
          · exact absurd h0 hgr
        simp only [List.mem_map] at hx
        obtain ⟨z, hz, rfl⟩ := hx
        intro hmatch
        unfold deliveredToReadStep at hmatch ⊢
        by_cases hgd : z.chatId = cid ∧ z.receiver = sock.userId ∧
            z.status = MsgStatus.delivered
        · rw [if_pos hgd]
          exact ⟨by simp, by simp⟩
        · rw [if_neg hgd]
          rw [if_neg hgd] at hmatch
          refine ⟨fun hdel => hgd ⟨hmatch.1, hmatch.2, hdel⟩, ?_⟩
          intro hsent hrec
          have hzmem : z ∈ st.messages.map
              (deliveredToReadStep cid sock.userId now) := by
            rw [List.mem_map]
            refine ⟨z, hz, ?_⟩
            unfold deliveredToReadStep
            rw [if_neg hgd]
          have := List.filter_eq_nil_iff.mp hnil z hzmem
          apply this
          simp [isRecentSent, hmatch.1, hmatch.2, hsent, hrec]
    simp only [sockReadHandler]
    have hid : ((sockReadHandler st sock cid now).1.messages).map
        (deliveredToReadStep cid sock.userId now')
        = (sockReadHandler st sock cid now).1.messages := by
      apply listMapFixed
      intro x hx
      unfold deliveredToReadStep
      rw [if_neg]
      intro hgd
      exact (hchar x hx ⟨hgd.1, hgd.2.1⟩).1 hgd.2.2
    have hfil : ((sockReadHandler st sock cid now).1.messages).filter
        (isRecentSent cid sock.userId now') = [] := by
      rw [List.filter_eq_nil_iff]
      intro x hx hrs
      simp only [isRecentSent, decide_eq_true_eq] at hrs
      obtain ⟨h1, h2, h3, h4⟩ := hrs
      have := (hchar x hx ⟨h1, h2⟩).2 h3
      omega
    simp only [sockReadHandler] at hid hfil
    rw [hid, hfil]
    simp

/-- C5 witness: the amended statement at a concrete state with one
delivered message, reconciled twice over each transport. -/
theorem C5_second_call_no_transitions_witness :
    ((100000 : Nat) ≤ 100001) ∧
    ((httpReadHandler
        (httpReadHandler
          (⟨[⟨0, [5, 7], 0, 0⟩],
            [⟨0, 0, 5, 7, "m", 0, MsgStatus.delivered, some 1, none⟩],
            [⟨1, 5⟩], [5], 1, 1⟩ : ServerState) 7 0 100000).1
        7 0 100001).2.2.totalCount = 0 ∧
     (sockReadHandler
        (sockReadHandler
          (⟨[⟨0, [5, 7], 0, 0⟩],
            [⟨0, 0, 5, 7, "m", 0, MsgStatus.delivered, some 1, none⟩],
            [⟨1, 5⟩], [5], 1, 1⟩ : ServerState) ⟨2, 7⟩ 0 100000).1
        ⟨2, 7⟩ 0 100001).1.messages
      = (sockReadHandler
          (⟨[⟨0, [5, 7], 0, 0⟩],
            [⟨0, 0, 5, 7, "m", 0, MsgStatus.delivered, some 1, none⟩],
            [⟨1, 5⟩], [5], 1, 1⟩ : ServerState) ⟨2, 7⟩ 0 100000).1.messages) :=
  ⟨by decide,
   C5_second_call_no_transitions
     (⟨[⟨0, [5, 7], 0, 0⟩],
       [⟨0, 0, 5, 7, "m", 0, MsgStatus.delivered, some 1, none⟩],
       [⟨1, 5⟩], [5], 1, 1⟩ : ServerState) ⟨2, 7⟩ 7 0 100000 100001
     (by decide)⟩

/-! ## C6 — shape and counts of read notifications -/

/-- Filtering the notifications addressed to `sid` out of the per-sender
`filterMap` yields exactly one when `sid` is a listed sender with a live
socket, and none otherwise (provided the sender list has no duplicates). -/
theorem emitsFilterLength (sockets : List Socket) (cid r : Nat)
    (cnt : Nat → Nat) (sid : Nat) :
    ∀ (l : List Nat), l.Nodup →
    ((l.filterMap (fun s2 =>
        match findSocketFor sockets s2 with
        | some _ => some (Emit.messageRead s2 cid r (cnt s2))
        | none => none)).filter (emitReadTo sid)).length
      = if (findSocketFor sockets sid).isSome = true ∧ sid ∈ l then 1
        else 0 := by
  intro l
  induction l with
  | nil => intro _; simp
  | cons a t ih =>
    intro hnd
    rw [List.filterMap_cons]
    cases hfa : findSocketFor sockets a with
    | none =>
      by_cases hsa : sid = a
      · subst hsa
        rw [ih (List.nodup_cons.mp hnd).2]
        simp [hfa]
      · rw [ih (List.nodup_cons.mp hnd).2]
        simp [List.mem_cons, hsa]
    | some s =>
      by_cases hsa : sid = a
      · subst hsa
        rw [List.filter_cons]
        have hkeep : emitReadTo sid (Emit.messageRead sid cid r (cnt sid))
            = true := by simp [emitReadTo]
        rw [if_pos hkeep, List.length_cons,
          ih (List.nodup_cons.mp hnd).2]
        have hnin : sid ∉ t := (List.nodup_cons.mp hnd).1
        simp [hfa, hnin]
      · rw [List.filter_cons]
        have hdrop : emitReadTo sid (Emit.messageRead a cid r (cnt a))
            = false := by simp [emitReadTo, Ne.symm hsa]
        rw [if_neg (by simp [hdrop]), ih (List.nodup_cons.mp hnd).2]
        simp [List.mem_cons, hsa]

/-- C6 (amended): per read signal the socket handler emits at most one
notification per sender — exactly one to each online sender appearing in
the re-queried read list — but its `messageCount` is the number of that
sender's messages to the reader in this conversation at status `read`
after the call (all of them, when they number at most 100), including
messages read by earlier calls; and on the HTTP path at most one
notification is emitted, whose `messageCount` is `readCount` plus
`deliveredCount`, which counts a grace-window message twice. -/
theorem C6_notification_shape (st : ServerState) (rsock : Socket)
    (cid now sid uid : Nat)
    (hlen : (readMessagesFor (sockReadHandler st rsock cid now).1.messages
        cid rsock.userId).length ≤ 100) :
    (((sockReadHandler st rsock cid now).2.filter (emitReadTo sid)).length
      = if (findSocketFor st.sockets sid).isSome = true ∧
            sid ∈ (readMessagesFor
              (sockReadHandler st rsock cid now).1.messages
              cid rsock.userId).map (fun m => m.sender)
        then 1 else 0) ∧
    (∀ n, Emit.messageRead sid cid rsock.userId n
        ∈ (sockReadHandler st rsock cid now).2 →
      n = (readMessagesFor (sockReadHandler st rsock cid now).1.messages
          cid rsock.userId).countP (fun m => decide (m.sender = sid))) ∧
    ((httpReadHandler st uid cid now).2.1 = [] ∨ ∃ tgt,
      (httpReadHandler st uid cid now).2.1
        = [Emit.messageRead tgt cid uid
            ((httpReadHandler st uid cid now).2.2.readCount
              + (httpReadHandler st uid cid now).2.2.deliveredCount)]) := by
  have hperm : List.Perm
      (readMessagesQuery
        ((sockReadHandler st rsock cid now).1.messages) cid rsock.userId)
      (readMessagesFor ((sockReadHandler st rsock cid now).1.messages)
          cid rsock.userId) := by
    unfold readMessagesQuery
    rw [List.take_of_length_le]
    · exact List.perm_insertionSort tsDesc _
    · rw [(List.perm_insertionSort tsDesc _).length_eq]
      exact hlen
  have hemits : (sockReadHandler st rsock cid now).2
      = (((readMessagesQuery
            ((sockReadHandler st rsock cid now).1.messages)
            cid rsock.userId).map (fun m => m.sender)).dedup).filterMap
          (fun s2 =>
            match findSocketFor st.sockets s2 with
            | some _ => some (Emit.messageRead s2 cid rsock.userId
                (((readMessagesQuery
                    ((sockReadHandler st rsock cid now).1.messages)
                    cid rsock.userId).filter
                    (fun m => decide (m.sender = s2))).length))
            | none => none) := rfl
  refine ⟨?_, ?_, ?_⟩
  · rw [hemits,
      emitsFilterLength st.sockets cid rsock.userId _ sid _
        (List.nodup_dedup _)]
    have hcond : ((findSocketFor st.sockets sid).isSome = true ∧
          sid ∈ ((readMessagesQuery
            ((sockReadHandler st rsock cid now).1.messages)
            cid rsock.userId).map (fun m => m.sender)).dedup)
        ↔ ((findSocketFor st.sockets sid).isSome = true ∧
          sid ∈ (readMessagesFor
            ((sockReadHandler st rsock cid now).1.messages)
            cid rsock.userId).map (fun m => m.sender)) := by
      refine and_congr Iff.rfl ?_
      rw [List.mem_dedup]
      exact (hperm.map (fun m => m.sender)).mem_iff
    rw [if_congr hcond rfl rfl]
  · intro n hmem
    rw [hemits, List.mem_filterMap] at hmem
    obtain ⟨a, ha, hfa⟩ := hmem
    cases hsock : findSocketFor st.sockets a with
    | none =>
      rw [hsock] at hfa
      cases hfa
    | some s =>
      rw [hsock] at hfa
      simp only [Option.some.injEq, Emit.messageRead.injEq] at hfa
      obtain ⟨rfl, -, -, rfl⟩ := hfa
      rw [← List.countP_eq_length_filter]
      exact hperm.countP_eq _
  · simp only [httpReadHandler]
    repeat' split
    all_goals first
      | exact Or.inl rfl
      | exact Or.inr ⟨_, rfl⟩

/-- C6 witness: the amended statement at a state where sender 5 has one
previously read and one delivered message to reader 7: sender 5 gets
exactly one notification and its count is the full read total (2). -/
theorem C6_notification_shape_witness :
    ((readMessagesFor
        (sockReadHandler
          (⟨[⟨0, [5, 7], 0, 0⟩],
            [⟨0, 0, 5, 7, "a", 0, MsgStatus.read, some 1, some 2⟩,
             ⟨1, 0, 5, 7, "b", 3, MsgStatus.delivered, some 4, none⟩],
            [⟨1, 5⟩, ⟨2, 7⟩], [5, 7], 1, 2⟩ : ServerState)
          ⟨2, 7⟩ 0 100000).1.messages 0 7).length ≤ 100) ∧
    ((((sockReadHandler
          (⟨[⟨0, [5, 7], 0, 0⟩],
            [⟨0, 0, 5, 7, "a", 0, MsgStatus.read, some 1, some 2⟩,
             ⟨1, 0, 5, 7, "b", 3, MsgStatus.delivered, some 4, none⟩],
            [⟨1, 5⟩, ⟨2, 7⟩], [5, 7], 1, 2⟩ : ServerState)
          ⟨2, 7⟩ 0 100000).2.filter (emitReadTo 5)).length
      = if (findSocketFor
            (⟨[⟨0, [5, 7], 0, 0⟩],
              [⟨0, 0, 5, 7, "a", 0, MsgStatus.read, some 1, some 2⟩,
               ⟨1, 0, 5, 7, "b", 3, MsgStatus.delivered, some 4, none⟩],
              [⟨1, 5⟩, ⟨2, 7⟩], [5, 7], 1, 2⟩ : ServerState).sockets
            5).isSome = true ∧
            (5 : Nat) ∈ (readMessagesFor
              (sockReadHandler
                (⟨[⟨0, [5, 7], 0, 0⟩],
                  [⟨0, 0, 5, 7, "a", 0, MsgStatus.read, some 1, some 2⟩,
                   ⟨1, 0, 5, 7, "b", 3, MsgStatus.delivered, some 4, none⟩],
                  [⟨1, 5⟩, ⟨2, 7⟩], [5, 7], 1, 2⟩ : ServerState)
                ⟨2, 7⟩ 0 100000).1.messages 0 7).map (fun m => m.sender)
        then 1 else 0) ∧
     (∀ n, Emit.messageRead 5 0 7 n
        ∈ (sockReadHandler
            (⟨[⟨0, [5, 7], 0, 0⟩],
              [⟨0, 0, 5, 7, "a", 0, MsgStatus.read, some 1, some 2⟩,
               ⟨1, 0, 5, 7, "b", 3, MsgStatus.delivered, some 4, none⟩],
              [⟨1, 5⟩, ⟨2, 7⟩], [5, 7], 1, 2⟩ : ServerState)
            ⟨2, 7⟩ 0 100000).2 →
      n = (readMessagesFor
          (sockReadHandler
            (⟨[⟨0, [5, 7], 0, 0⟩],
              [⟨0, 0, 5, 7, "a", 0, MsgStatus.read, some 1, some 2⟩,
               ⟨1, 0, 5, 7, "b", 3, MsgStatus.delivered, some 4, none⟩],
              [⟨1, 5⟩, ⟨2, 7⟩], [5, 7], 1, 2⟩ : ServerState)
            ⟨2, 7⟩ 0 100000).1.messages 0 7).countP
          (fun m => decide (m.sender = 5))) ∧
     ((httpReadHandler
          (⟨[⟨0, [5, 7], 0, 0⟩],
            [⟨0, 0, 5, 7, "a", 0, MsgStatus.read, some 1, some 2⟩,
             ⟨1, 0, 5, 7, "b", 3, MsgStatus.delivered, some 4, none⟩],
            [⟨1, 5⟩, ⟨2, 7⟩], [5, 7], 1, 2⟩ : ServerState) 7 0
          100000).2.1 = [] ∨ ∃ tgt,
      (httpReadHandler
          (⟨[⟨0, [5, 7], 0, 0⟩],
            [⟨0, 0, 5, 7, "a", 0, MsgStatus.read, some 1, some 2⟩,
             ⟨1, 0, 5, 7, "b", 3, MsgStatus.delivered, some 4, none⟩],
            [⟨1, 5⟩, ⟨2, 7⟩], [5, 7], 1, 2⟩ : ServerState) 7 0
          100000).2.1
        = [Emit.messageRead tgt 0 7
            ((httpReadHandler
                (⟨[⟨0, [5, 7], 0, 0⟩],
                  [⟨0, 0, 5, 7, "a", 0, MsgStatus.read, some 1, some 2⟩,
                   ⟨1, 0, 5, 7, "b", 3, MsgStatus.delivered, some 4, none⟩],
                  [⟨1, 5⟩, ⟨2, 7⟩], [5, 7], 1, 2⟩ : ServerState) 7 0
                100000).2.2.readCount
              + (httpReadHandler
                  (⟨[⟨0, [5, 7], 0, 0⟩],
                    [⟨0, 0, 5, 7, "a", 0, MsgStatus.read, some 1, some 2⟩,
                     ⟨1, 0, 5, 7, "b", 3, MsgStatus.delivered, some 4,
                      none⟩],
                    [⟨1, 5⟩, ⟨2, 7⟩], [5, 7], 1, 2⟩ : ServerState) 7 0
                  100000).2.2.deliveredCount)])) :=
  ⟨by decide,
   C6_notification_shape
     (⟨[⟨0, [5, 7], 0, 0⟩],
       [⟨0, 0, 5, 7, "a", 0, MsgStatus.read, some 1, some 2⟩,
        ⟨1, 0, 5, 7, "b", 3, MsgStatus.delivered, some 4, none⟩],
       [⟨1, 5⟩, ⟨2, 7⟩], [5, 7], 1, 2⟩ : ServerState)
     ⟨2, 7⟩ 0 100000 5 7 (by decide)⟩

/-! ## C7 — the stamp/status biconditional on the primary variant -/

/-- Every per-message update step leaves the message id unchanged. -/
theorem msgIdSteps (cid r now mid : Nat) (m : Message) :
    (deliveredToReadStep cid r now m).msgId = m.msgId ∧
    (graceDeliverStep cid r now m).msgId = m.msgId ∧
    (freshDeliveredToReadStep cid r now m).msgId = m.msgId ∧
    (deliveredAckStep mid now m).msgId = m.msgId ∧
    (autoDeliverStep mid now m).msgId = m.msgId := by
  unfold deliveredToReadStep graceDeliverStep freshDeliveredToReadStep
    deliveredAckStep autoDeliverStep
  refine ⟨?_, ?_, ?_, ?_, ?_⟩ <;> split <;> rfl

/-- The delivered-to-read bump preserves the stamp/status biconditional. -/
theorem consistentDeliveredToRead (cid r now : Nat) (m : Message)
    (h : statusTimestampsConsistent m) :
    statusTimestampsConsistent (deliveredToReadStep cid r now m) := by
  unfold deliveredToReadStep
  split
  · rename_i hg
    refine ⟨?_, by simp [statusTimestampsConsistent]⟩
    simpa [statusTimestampsConsistent] using h.1.mpr (Or.inl hg.2.2)
  · exact h

/-- The grace bump preserves the stamp/status biconditional. -/
theorem consistentGraceDeliver (cid r now : Nat) (m : Message)
    (h : statusTimestampsConsistent m) :
    statusTimestampsConsistent (graceDeliverStep cid r now m) := by
  unfold graceDeliverStep
  split
  · rename_i hg
    have hread : m.readAt = none := by
      by_contra hne
      rw [h.2.mp hne] at hg
      exact absurd hg.2.2.1 (by simp)
    refine ⟨by simp [statusTimestampsConsistent], ?_⟩
    simp [statusTimestampsConsistent, hread]
  · exact h

/-- The fresh delivered-to-read bump preserves the biconditional. -/
theorem consistentFreshDeliveredToRead (cid r now : Nat) (m : Message)
    (h : statusTimestampsConsistent m) :
    statusTimestampsConsistent (freshDeliveredToReadStep cid r now m) := by
  unfold freshDeliveredToReadStep
  split
  · rename_i hg
    refine ⟨?_, by simp [statusTimestampsConsistent]⟩
    simpa [statusTimestampsConsistent] using h.1.mpr (Or.inl hg.2.2.1)
  · exact h

/-- The conditional delivery acknowledgment preserves the biconditional. -/
theorem consistentDeliveredAck (mid now : Nat) (m : Message)
    (h : statusTimestampsConsistent m) :
    statusTimestampsConsistent (deliveredAckStep mid now m) := by
  unfold deliveredAckStep
  split
  · rename_i hg
    have hread : m.readAt = none := by
      by_contra hne
      rw [h.2.mp hne] at hg
      exact absurd hg.2 (by simp)
    refine ⟨by simp [statusTimestampsConsistent], ?_⟩
    simp [statusTimestampsConsistent, hread]
  · exact h

/-- Each handler of the enhanced server, run to completion, preserves the
stamp/status biconditional of every stored message, together with the
freshness bound on message ids (which guarantees the push path's
unconditional `findByIdAndUpdate` touches only the message it just
saved). -/
theorem applyOpPreserves (st : ServerState) (op : ServerOp)
    (hids : ∀ m ∈ st.messages, m.msgId < st.nextMsgId)
    (hcons : ∀ m ∈ st.messages, statusTimestampsConsistent m) :
    (∀ m ∈ (applyOp st op).messages,
        m.msgId < (applyOp st op).nextMsgId) ∧
    (∀ m ∈ (applyOp st op).messages, statusTimestampsConsistent m) := by
  cases op with
  | opConnect s => exact ⟨hids, hcons⟩
  | opDisconnect s => exact ⟨hids, hcons⟩
  | opSockSend s r c n ok =>
    cases r with
    | none => exact ⟨hids, hcons⟩
    | some rid =>
      cases c with
      | none => exact ⟨hids, hcons⟩
      | some cs =>
        by_cases hcs : cs = ""
        · simp only [applyOp, sockSendMessage, sockSendPhase1, if_pos hcs]
          exact ⟨hids, hcons⟩
        · cases ok with
          | false =>
            simp only [applyOp, sockSendMessage, sockSendPhase1,
              if_neg hcs]
            exact ⟨hids, hcons⟩
          | true =>
            simp only [applyOp, sockSendMessage, sockSendPhase1,
              sockSendPhase2, if_neg hcs, if_true]
            cases hs : findSocketFor st.sockets rid with
            | none =>
              constructor
              · intro m hm
                rcases List.mem_append.mp hm with h | h
                · exact Nat.lt_succ_of_lt (hids m h)
                · rw [List.mem_singleton.mp h]
                  exact Nat.lt_succ_self _
              · intro m hm
                rcases List.mem_append.mp hm with h | h
                · exact hcons m h
                · rw [List.mem_singleton.mp h]
                  simp [statusTimestampsConsistent]
            | some s2 =>
              constructor
              · intro m hm
                obtain ⟨x, hx, rfl⟩ := List.mem_map.mp hm
                rw [(msgIdSteps 0 0 n st.nextMsgId x).2.2.2.2]
                rcases List.mem_append.mp hx with h | h
                · exact Nat.lt_succ_of_lt (hids x h)
                · rw [List.mem_singleton.mp h]
                  exact Nat.lt_succ_self _
              · intro m hm
                obtain ⟨x, hx, rfl⟩ := List.mem_map.mp hm
                rcases List.mem_append.mp hx with h | h
                · have hne : ¬ x.msgId = st.nextMsgId :=
                    Nat.ne_of_lt (hids x h)
                  unfold autoDeliverStep
                  rw [if_neg hne]
                  exact hcons x h
                · rw [List.mem_singleton.mp h]
                  simp [autoDeliverStep, statusTimestampsConsistent]
  | opHttpSend uid r c n ok =>
    cases r with
    | none => exact ⟨hids, hcons⟩
    | some rid =>
      cases c with
      | none => exact ⟨hids, hcons⟩
      | some cs =>
        by_cases hcs : cs = ""
        · simp only [applyOp, httpSendMessage, if_pos hcs]
          exact ⟨hids, hcons⟩
        · cases ok with
          | false =>
            simp only [applyOp, httpSendMessage, if_neg hcs]
            exact ⟨hids, hcons⟩
          | true =>
            simp only [applyOp, httpSendMessage, if_neg hcs, if_true]
            constructor
            · intro m hm
              rcases List.mem_append.mp hm with h | h
              · exact Nat.lt_succ_of_lt (hids m h)
              · rw [List.mem_singleton.mp h]
                exact Nat.lt_succ_self _
            · intro m hm
              rcases List.mem_append.mp hm with h | h
              · exact hcons m h
              · rw [List.mem_singleton.mp h]
                simp [statusTimestampsConsistent]
  | opDeliveredAck mid n2 =>
    simp only [applyOp, deliveredAckEndpoint]
    split
    · constructor
      · intro m hm
        obtain ⟨x, hx, rfl⟩ := List.mem_map.mp hm
        rw [(msgIdSteps 0 0 n2 mid x).2.2.2.1]
        exact hids x hx
      · intro m hm
        obtain ⟨x, hx, rfl⟩ := List.mem_map.mp hm
        exact consistentDeliveredAck mid n2 x (hcons x hx)
    · split
      · exact ⟨hids, hcons⟩
      · exact ⟨hids, hcons⟩
  | opSockRead s2 cid n2 =>
    simp only [applyOp, sockReadHandler]
    by_cases hgr : ((st.messages.map
        (deliveredToReadStep cid s2.userId n2)).filter
        (isRecentSent cid s2.userId n2)).length > 0
    · rw [if_pos hgr]
      constructor
      · intro m hm
        obtain ⟨x, hx, rfl⟩ := List.mem_map.mp hm
        obtain ⟨y, hy, rfl⟩ := List.mem_map.mp hx
        obtain ⟨z, hz, rfl⟩ := List.mem_map.mp hy
        rw [(msgIdSteps cid s2.userId n2 0 _).2.2.1,
          (msgIdSteps cid s2.userId n2 0 _).2.1,
          (msgIdSteps cid s2.userId n2 0 _).1]
        exact hids z hz
      · intro m hm
        obtain ⟨x, hx, rfl⟩ := List.mem_map.mp hm
        obtain ⟨y, hy, rfl⟩ := List.mem_map.mp hx
        obtain ⟨z, hz, rfl⟩ := List.mem_map.mp hy
        exact consistentFreshDeliveredToRead _ _ _ _
          (consistentGraceDeliver _ _ _ _
            (consistentDeliveredToRead _ _ _ _ (hcons z hz)))
    · rw [if_neg hgr]
      constructor
      · intro m hm
        obtain ⟨x, hx, rfl⟩ := List.mem_map.mp hm
        rw [(msgIdSteps cid s2.userId n2 0 _).1]
        exact hids x hx
      · intro m hm
        obtain ⟨x, hx, rfl⟩ := List.mem_map.mp hm
        exact consistentDeliveredToRead _ _ _ _ (hcons x hx)
  | opHttpRead uid cid n2 =>
    simp only [applyOp, httpReadHandler]
    constructor
    · intro m hm
      obtain ⟨x, hx, rfl⟩ := List.mem_map.mp hm
      obtain ⟨y, hy, rfl⟩ := List.mem_map.mp hx
      rw [(msgIdSteps cid uid n2 0 _).1,
        (msgIdSteps cid uid n2 0 _).2.1]
      exact hids y hy
    · intro m hm
      obtain ⟨x, hx, rfl⟩ := List.mem_map.mp hm
      obtain ⟨y, hy, rfl⟩ := List.mem_map.mp hx
      exact consistentDeliveredToRead _ _ _ _
        (consistentGraceDeliver _ _ _ _ (hcons y hy))

/-- C7 (amended): on the enhanced `server.js` variant, after any sequence
of handler invocations starting from the empty server, every stored
message satisfies: `deliveredAt` is non-null iff its status is `delivered`
or `read`, and `readAt` is non-null iff its status is `read`. The
`routes/auth.js` send variant violates this (see the counterexample). -/
theorem C7_primary_variant_invariant (ops : List ServerOp) :
    ∀ m ∈ (applyOps initialState ops).messages,
      statusTimestampsConsistent m := by
  suffices h : ∀ (l : List ServerOp) (st : ServerState),
      (∀ m ∈ st.messages, m.msgId < st.nextMsgId) →
      (∀ m ∈ st.messages, statusTimestampsConsistent m) →
      ((∀ m ∈ (applyOps st l).messages,
          m.msgId < (applyOps st l).nextMsgId) ∧
       (∀ m ∈ (applyOps st l).messages, statusTimestampsConsistent m)) by
    exact (h ops initialState (by simp [initialState])
      (by simp [initialState])).2
  intro l
  induction l with
  | nil => exact fun st h1 h2 => ⟨h1, h2⟩
  | cons op t ih =>
    intro st h1 h2
    have hstep := applyOpPreserves st op h1 h2
    exact ih (applyOp st op) hstep.1 hstep.2

/-- C7 witness: the invariant instantiated after one HTTP submission on
the empty server, at the stored message. -/
theorem C7_primary_variant_invariant_witness :
    (⟨0, 0, 5, 6, "hi", 7, MsgStatus.sent, none, none⟩ : Message)
        ∈ (applyOps initialState
            [ServerOp.opHttpSend 5 (some 6) (some "hi") 7 true]).messages ∧
    statusTimestampsConsistent
      (⟨0, 0, 5, 6, "hi", 7, MsgStatus.sent, none, none⟩ : Message) :=
  ⟨by decide,
   C7_primary_variant_invariant
     [ServerOp.opHttpSend 5 (some 6) (some "hi") 7 true]
     ⟨0, 0, 5, 6, "hi", 7, MsgStatus.sent, none, none⟩ (by decide)⟩
